import Mathlib

/-!
Verification of the due-schedule claiming and execution engine
(`/api/schedules/execute.js` plus its cron driver).

The JavaScript source manipulates timestamps through the ECMAScript `Date`
object.  We embed the relevant `Date` operations (`getDay`, `getDate`,
`getMonth`, `setDate`, `setMonth`) over an integer timestamp in milliseconds
since the Unix epoch, following the ECMAScript specification of those
operations with a zero local-time offset (the engine runs on a UTC host).
ECMAScript `floor` division and `modulo` on integers coincide with `Int.ediv`
and `Int.emod` for positive divisors, which are `/` and `%` below.
-/

namespace MdmDash

/-- Milliseconds per day (ECMAScript msPerDay). -/
def msPerDay : Int := 86400000

/-- ECMAScript Day(t): the day number containing timestamp t. -/
def dayOf (t : Int) : Int := t / msPerDay

/-- ECMAScript TimeWithinDay(t): milliseconds elapsed within the day of t. -/
def timeWithinDay (t : Int) : Int := t % msPerDay

/-- ECMAScript WeekDay(t): 0 = Sunday .. 6 = Saturday.  Day 0 (1970-01-01)
was a Thursday, weekday 4. -/
def weekDay (t : Int) : Int := (dayOf t + 4) % 7

/-- ECMAScript DayFromYear(y): the day number of the first day of year y. -/
def dayFromYear (y : Int) : Int :=
  365 * (y - 1970) + (y - 1969) / 4 - (y - 1901) / 100 + (y - 1601) / 400

/-- ECMAScript InLeapYear, expressed as a predicate on the year. -/
def inLeapYear (y : Int) : Bool :=
  y % 4 == 0 && (y % 100 != 0 || y % 400 == 0)

/-- One extra day from March onward in a leap year. -/
def leapInc (leap : Bool) : Int := if leap then 1 else 0

/-- Extract the Gregorian calendar year of a day number.  This is the
standard civil-from-days computation; it implements the ECMAScript
YearFromTime characterisation (the largest y with DayFromYear(y) ≤ day)
by closed arithmetic so that the embedding stays executable. -/
def yearFromDay (z0 : Int) : Int :=
  let z := z0 + 719468
  let era := z / 146097
  let doe := z % 146097
  let yoe := (doe - doe / 1460 + doe / 36524 - doe / 146096) / 365
  let y := yoe + era * 400
  let doy := doe - (365 * yoe + yoe / 4 - yoe / 100)
  let mp := (5 * doy + 2) / 153
  let m := if mp < 10 then mp + 3 else mp - 9
  if m ≤ 2 then y + 1 else y

/-- ECMAScript YearFromTime(t). -/
def yearFromTime (t : Int) : Int := yearFromDay (dayOf t)

/-- ECMAScript DayWithinYear(t) = Day(t) − DayFromYear(YearFromTime(t)). -/
def dayWithinYear (t : Int) : Int := dayOf t - dayFromYear (yearFromTime t)

/-- Cumulative number of days strictly before month m (0 = January ..
11 = December) in a year; the leap flag adds one from March onward.
This is the month-boundary table of the ECMAScript MonthFromTime and
DateFromTime operations. -/
def cumDays (leap : Bool) (m : Int) : Int :=
  if m ≤ 0 then 0
  else if m = 1 then 31
  else if m = 2 then 59 + leapInc leap
  else if m = 3 then 90 + leapInc leap
  else if m = 4 then 120 + leapInc leap
  else if m = 5 then 151 + leapInc leap
  else if m = 6 then 181 + leapInc leap
  else if m = 7 then 212 + leapInc leap
  else if m = 8 then 243 + leapInc leap
  else if m = 9 then 273 + leapInc leap
  else if m = 10 then 304 + leapInc leap
  else 334 + leapInc leap

/-- Month index of a day-within-year dwy, where l is the leap increment;
the case table of ECMAScript MonthFromTime. -/
def monthIndex (dwy l : Int) : Int :=
  if dwy < 31 then 0
  else if dwy < 59 + l then 1
  else if dwy < 90 + l then 2
  else if dwy < 120 + l then 3
  else if dwy < 151 + l then 4
  else if dwy < 181 + l then 5
  else if dwy < 212 + l then 6
  else if dwy < 243 + l then 7
  else if dwy < 273 + l then 8
  else if dwy < 304 + l then 9
  else if dwy < 334 + l then 10
  else 11

/-- ECMAScript MonthFromTime(t): 0 = January .. 11 = December. -/
def monthFromTime (t : Int) : Int :=
  monthIndex (dayWithinYear t) (leapInc (inLeapYear (yearFromTime t)))

/-- ECMAScript DateFromTime(t): the 1-based day of the month. -/
def dateFromTime (t : Int) : Int :=
  dayWithinYear t - cumDays (inLeapYear (yearFromTime t)) (monthFromTime t) + 1

/-- ECMAScript MakeDay(year, month, date): month is normalised into the
year, then the (possibly out-of-range) date offsets from the first of the
month. -/
def makeDay (y m d : Int) : Int :=
  dayFromYear (y + m / 12) + cumDays (inLeapYear (y + m / 12)) (m % 12) + d - 1

/-- ECMAScript MakeDate(day, time). -/
def makeDate (day time : Int) : Int := day * msPerDay + time

/-- The effect of the JavaScript statement d.setDate(n): keep year, month
and time-of-day of d, replace the day-of-month by n (with overflow
normalised by MakeDay). -/
def setDateTo (t n : Int) : Int :=
  makeDate (makeDay (yearFromTime t) (monthFromTime t) n) (timeWithinDay t)

/-- The effect of the JavaScript statement d.setMonth(n): keep year,
day-of-month and time-of-day of d, replace the month by n (normalised by
MakeDay). -/
def setMonthTo (t n : Int) : Int :=
  makeDate (makeDay (yearFromTime t) n (dateFromTime t)) (timeWithinDay t)

/-! Basic facts about the date layer. -/

theorem msPerDay_pos : (0 : Int) < msPerDay := by decide

/-- Decomposition of a timestamp into its day and time-within-day. -/
theorem dayOf_decomp (t : Int) : t = dayOf t * msPerDay + timeWithinDay t := by
  unfold dayOf timeWithinDay msPerDay
  omega

theorem timeWithinDay_nonneg (t : Int) : 0 ≤ timeWithinDay t :=
  Int.emod_nonneg t (by decide)

theorem timeWithinDay_lt (t : Int) : timeWithinDay t < msPerDay :=
  Int.emod_lt_of_pos t msPerDay_pos

/-- Adding whole days leaves the time-of-day unchanged. -/
theorem timeWithinDay_add_days (t k : Int) :
    timeWithinDay (t + k * msPerDay) = timeWithinDay t := by
  unfold timeWithinDay msPerDay
  omega

theorem weekDay_nonneg (t : Int) : 0 ≤ weekDay t :=
  Int.emod_nonneg _ (by decide)

theorem weekDay_lt (t : Int) : weekDay t < 7 :=
  Int.emod_lt_of_pos _ (by decide)

set_option maxHeartbeats 1600000 in
/-- The month index always lands in the range 0..11. -/
theorem monthIndex_range (dwy l : Int) :
    0 ≤ monthIndex dwy l ∧ monthIndex dwy l ≤ 11 := by
  unfold monthIndex
  split_ifs <;> omega

/-- MonthFromTime always lands in the range 0..11. -/
theorem monthFromTime_range (t : Int) :
    0 ≤ monthFromTime t ∧ monthFromTime t ≤ 11 := by
  unfold monthFromTime
  exact monthIndex_range _ _

/-- MakeDay on an in-range month needs no normalisation. -/
theorem makeDay_small (y m d : Int) (h0 : 0 ≤ m) (h1 : m < 12) :
    makeDay y m d = dayFromYear y + cumDays (inLeapYear y) m + d - 1 := by
  unfold makeDay
  rw [Int.ediv_eq_zero_of_lt h0 h1, Int.emod_eq_of_lt h0 h1]
  simp only [add_zero]

/-- MakeDay at month 12 rolls over into January of the next year. -/
theorem makeDay_december_succ (y d : Int) :
    makeDay y 12 d = dayFromYear (y + 1) + d - 1 := by
  unfold makeDay
  norm_num
  have hc : cumDays (inLeapYear (y + 1)) 0 = 0 := by unfold cumDays; simp
  rw [hc]

/-- The extracted year, month and date of a timestamp, fed back through
MakeDay, reproduce the day number of that timestamp.  The month-boundary
table cancels, so the identity holds by pure arithmetic. -/
theorem makeDay_roundtrip (t : Int) :
    makeDay (yearFromTime t) (monthFromTime t) (dateFromTime t) = dayOf t := by
  have hm := monthFromTime_range t
  rw [makeDay_small (yearFromTime t) (monthFromTime t) (dateFromTime t) hm.1
    (by omega)]
  unfold dateFromTime dayWithinYear
  omega

/-- MakeDay is linear in its date argument. -/
theorem makeDay_add_date (y m d k : Int) :
    makeDay y m (d + k) = makeDay y m d + k := by
  unfold makeDay
  omega

/-- setDate, applied to the own day-of-month of t plus an offset k, moves
the timestamp forward by exactly k whole days. -/
theorem setDateTo_add (t k : Int) :
    setDateTo t (dateFromTime t + k) = t + k * msPerDay := by
  unfold setDateTo
  rw [makeDay_add_date, makeDay_roundtrip]
  unfold makeDate
  have h := dayOf_decomp t
  unfold msPerDay at *
  omega

/-- The first day of the next year is at least 365 days after the first
day of the current year. -/
theorem dayFromYear_succ_ge (y : Int) :
    dayFromYear y + 365 ≤ dayFromYear (y + 1) := by
  unfold dayFromYear
  omega

/-- The month-boundary table is strictly monotone across the months of a
single year. -/
theorem cumDays_strict (leap : Bool) (m : Int) (h0 : 0 ≤ m) (h10 : m ≤ 10) :
    cumDays leap m < cumDays leap (m + 1) := by
  interval_cases m <;> cases leap <;> decide

/-- The month-boundary table never exceeds 335. -/
theorem cumDays_le (leap : Bool) (m : Int) : cumDays leap m ≤ 335 := by
  unfold cumDays leapInc
  cases leap <;> omega

/-- Advancing the month component of a timestamp by one (the ECMAScript
setMonth(getMonth()+1) idiom) strictly increases the timestamp. -/
theorem setMonthTo_succ_gt (t : Int) :
    t < setMonthTo t (monthFromTime t + 1) := by
  have hm := monthFromTime_range t
  have hround := makeDay_roundtrip t
  have hkey : makeDay (yearFromTime t) (monthFromTime t) (dateFromTime t)
      < makeDay (yearFromTime t) (monthFromTime t + 1) (dateFromTime t) := by
    rcases lt_or_eq_of_le hm.2 with h11 | h11
    · -- month + 1 still within the same year
      rw [makeDay_small (yearFromTime t) (monthFromTime t) (dateFromTime t)
        hm.1 (by omega)]
      rw [makeDay_small (yearFromTime t) (monthFromTime t + 1) (dateFromTime t)
        (by omega) (by omega)]
      have hc := cumDays_strict (inLeapYear (yearFromTime t)) (monthFromTime t)
        hm.1 (by omega)
      omega
    · -- December: the month rolls over into the next year
      have h12 : monthFromTime t + 1 = 12 := by omega
      rw [h12, makeDay_december_succ]
      rw [makeDay_small (yearFromTime t) (monthFromTime t) (dateFromTime t)
        hm.1 (by omega)]
      have hy := dayFromYear_succ_ge (yearFromTime t)
      have hcle := cumDays_le (inLeapYear (yearFromTime t)) (monthFromTime t)
      omega
  rw [hround] at hkey
  unfold setMonthTo makeDate
  have h := dayOf_decomp t
  have h2 := timeWithinDay_nonneg t
  unfold msPerDay at *
  omega

/-! List machinery for the weekly rule: the source sorts the recurrence
days ascending with a numeric comparator and scans for the first entry
greater than the current weekday. -/

instance : Std.Antisymm (fun x1 x2 : Int => x1 ≤ x2) :=
  ⟨fun h h2 => le_antisymm h h2⟩

/-- Ascending numeric sort, the effect of the JavaScript spread-and-sort
of recurrenceDays with the numeric comparator a - b. -/
def sortInts (l : List Int) : List Int :=
  List.insertionSort (fun a b : Int => a ≤ b) l

theorem sortInts_perm (l : List Int) : (sortInts l).Perm l :=
  List.perm_insertionSort _ _

theorem sortInts_sorted (l : List Int) :
    List.Sorted (fun a b : Int => a ≤ b) (sortInts l) :=
  List.sorted_insertionSort _ _

/-- Characterisation of min? on integer lists. -/
theorem int_min?_eq_some_iff (l : List Int) (a : Int) :
    l.min? = some a ↔ a ∈ l ∧ ∀ b ∈ l, a ≤ b :=
  List.min?_eq_some_iff (fun x => le_refl x) (fun x y => min_choice x y)
    (fun _ _ _ => le_min_iff)

/-- On a list sorted ascending, find? for being greater than c returns the
least element greater than c. -/
theorem sorted_find?_gt {c x : Int} {l : List Int}
    (hs : List.Sorted (fun a b : Int => a ≤ b) l)
    (hf : l.find? (fun d => decide (c < d)) = some x) :
    x ∈ l ∧ c < x ∧ ∀ e ∈ l, c < e → x ≤ e := by
  induction l with
  | nil => simp at hf
  | cons a l ih =>
    by_cases hca : c < a
    · have hx : x = a := by
        rw [List.find?_cons_of_pos _ (by simpa using hca)] at hf
        exact (Option.some_inj.mp hf).symm
      subst hx
      refine ⟨List.mem_cons_self _ _, hca, ?_⟩
      intro e he _
      rcases List.mem_cons.mp he with rfl | he
      · exact le_refl _
      · exact List.rel_of_sorted_cons hs e he
    · rw [List.find?_cons_of_neg _ (by simpa using hca)] at hf
      obtain ⟨hmem, hcx, hleast⟩ := ih hs.tail hf
      refine ⟨List.mem_cons_of_mem _ hmem, hcx, ?_⟩
      intro e he hce
      rcases List.mem_cons.mp he with rfl | he
      · exact absurd hce hca
      · exact hleast e he hce

/-- The head of a nonempty ascending-sorted list is a lower bound. -/
theorem sorted_headD_le {l : List Int}
    (hs : List.Sorted (fun a b : Int => a ≤ b) l) (hne : l ≠ []) :
    l.headD 0 ∈ l ∧ ∀ e ∈ l, l.headD 0 ≤ e := by
  cases l with
  | nil => exact absurd rfl hne
  | cons a l =>
    refine ⟨List.mem_cons_self _ _, ?_⟩
    intro e he
    rcases List.mem_cons.mp he with rfl | he
    · exact le_refl _
    · exact List.rel_of_sorted_cons hs e he

/-! The recurrence calculator, translated from the source function
calculateNextExecutionTime(currentTime, pattern, recurrenceDays).
recurrenceDays is an optional array of weekday numbers; a missing or
non-array value behaves like the JavaScript Array.isArray failure. -/

/-- Source function calculateNextExecutionTime. -/
def calculateNextExecutionTime (currentTime : Int) (pattern : String)
    (recurrenceDays : Option (List Int)) : Option Int :=
  if pattern == "daily" then
    some (setDateTo currentTime (dateFromTime currentTime + 1))
  else if pattern == "weekly" then
    match recurrenceDays with
    | some days =>
      if days.length > 0 then
        let currentDay := weekDay currentTime
        let sortedDays := sortInts days
        match sortedDays.find? (fun day => decide (currentDay < day)) with
        | some nextDay =>
          some (setDateTo currentTime
            (dateFromTime currentTime + (nextDay - currentDay)))
        | none =>
          let nextDay := sortedDays.headD 0
          some (setDateTo currentTime
            (dateFromTime currentTime + (7 - currentDay + nextDay)))
      else
        some (setDateTo currentTime (dateFromTime currentTime + 7))
    | none => some (setDateTo currentTime (dateFromTime currentTime + 7))
  else if pattern == "monthly" then
    some (setMonthTo currentTime (monthFromTime currentTime + 1))
  else
    none

/-- The weekly advance in days, written the way the specification states
it: the smallest configured day strictly greater than the current weekday
when one exists, otherwise a wrap to the smallest configured day of the
following week. -/
def weeklyAdvanceSpec (current : Int) (days : List Int) : Int :=
  match (days.filter (fun d => decide (current < d))).min? with
  | some target => target - current
  | none => 7 - current + (days.min?.getD 0)

/-- On a daily pattern the calculator advances by exactly one day. -/
theorem calcNext_daily (t : Int) (dys : Option (List Int)) :
    calculateNextExecutionTime t "daily" dys = some (t + msPerDay) := by
  unfold calculateNextExecutionTime
  rw [if_pos (by decide)]
  rw [setDateTo_add, one_mul]

/-- On a monthly pattern the calculator advances the month component by
one, keeping day-of-month and time-of-day (MakeDay normalises overflow). -/
theorem calcNext_monthly (t : Int) (dys : Option (List Int)) :
    calculateNextExecutionTime t "monthly" dys
      = some (setMonthTo t (monthFromTime t + 1)) := by
  unfold calculateNextExecutionTime
  rw [if_neg (by decide), if_neg (by decide), if_pos (by decide)]

/-- Any unrecognised pattern yields no next occurrence. -/
theorem calcNext_default (t : Int) (dys : Option (List Int)) (p : String)
    (h1 : p ≠ "daily") (h2 : p ≠ "weekly") (h3 : p ≠ "monthly") :
    calculateNextExecutionTime t p dys = none := by
  unfold calculateNextExecutionTime
  rw [if_neg (by simpa using h1), if_neg (by simpa using h2),
    if_neg (by simpa using h3)]

/-- A missing day array falls back to a seven-day advance. -/
theorem calcNext_weekly_none (t : Int) :
    calculateNextExecutionTime t "weekly" none = some (t + 7 * msPerDay) := by
  unfold calculateNextExecutionTime
  rw [if_neg (by decide), if_pos (by decide)]
  rw [setDateTo_add]

/-- An empty day array falls back to a seven-day advance. -/
theorem calcNext_weekly_nil (t : Int) :
    calculateNextExecutionTime t "weekly" (some [])
      = some (t + 7 * msPerDay) := by
  unfold calculateNextExecutionTime
  rw [if_neg (by decide), if_pos (by decide)]
  dsimp only
  rw [if_neg (by decide)]
  rw [setDateTo_add]

/-- On a weekly pattern with a nonempty day array, the sort-and-scan of
the source computes exactly the advance the specification describes:
to the smallest configured day strictly after the current weekday, or
wrapped to the smallest configured day of the following week. -/
theorem calcNext_weekly_eq (t : Int) (days : List Int) (hne : days ≠ []) :
    calculateNextExecutionTime t "weekly" (some days)
      = some (t + weeklyAdvanceSpec (weekDay t) days * msPerDay) := by
  have hlen : 0 < days.length := List.length_pos.mpr hne
  have hsorted := sortInts_sorted days
  have hperm := sortInts_perm days
  unfold calculateNextExecutionTime
  rw [if_neg (by decide), if_pos (by decide)]
  dsimp only
  rw [if_pos hlen]
  cases hfind : (sortInts days).find? (fun day => decide (weekDay t < day)) with
  | some x =>
    obtain ⟨hmem, hcx, hleast⟩ := sorted_find?_gt hsorted hfind
    have hmin : (days.filter (fun d => decide (weekDay t < d))).min? = some x := by
      rw [int_min?_eq_some_iff]
      constructor
      · rw [List.mem_filter]
        exact ⟨hperm.mem_iff.mp hmem, by simpa using hcx⟩
      · intro b hb
        rw [List.mem_filter] at hb
        exact hleast b (hperm.mem_iff.mpr hb.1) (by simpa using hb.2)
    dsimp only
    rw [setDateTo_add]
    unfold weeklyAdvanceSpec
    rw [hmin]
  | none =>
    have hnone : ∀ e ∈ sortInts days, ¬ weekDay t < e := by
      intro e he
      have := List.find?_eq_none.mp hfind e he
      simpa using this
    have hfilter : days.filter (fun d => decide (weekDay t < d)) = [] := by
      rw [List.filter_eq_nil_iff]
      intro a ha
      simpa using hnone a (hperm.mem_iff.mpr ha)
    have hsne : sortInts days ≠ [] := by
      intro h0
      apply hne
      have := hperm.length_eq
      rw [h0] at this
      exact List.eq_nil_of_length_eq_zero this.symm
    obtain ⟨hheadmem, hheadle⟩ := sorted_headD_le hsorted hsne
    have hmin : days.min? = some ((sortInts days).headD 0) := by
      rw [int_min?_eq_some_iff]
      exact ⟨hperm.mem_iff.mp hheadmem,
        fun b hb => hheadle b (hperm.mem_iff.mpr hb)⟩
    rw [setDateTo_add]
    unfold weeklyAdvanceSpec
    rw [hfilter]
    simp only [List.min?_nil, hmin, Option.getD_some]

/-- The weekly advance is always at least one day when the current
weekday is in range and the configured days are nonnegative. -/
theorem weeklyAdvanceSpec_pos (c : Int) (days : List Int)
    (hc0 : 0 ≤ c) (hc7 : c < 7) (hdays : ∀ d ∈ days, 0 ≤ d) :
    1 ≤ weeklyAdvanceSpec c days := by
  unfold weeklyAdvanceSpec
  cases hmin : (days.filter (fun d => decide (c < d))).min? with
  | some target =>
    have h := (int_min?_eq_some_iff _ _).mp hmin
    have := (List.mem_filter.mp h.1).2
    have hct : c < target := by simpa using this
    dsimp only
    omega
  | none =>
    cases hmin2 : days.min? with
    | none => simp only [Option.getD_none]; omega
    | some m =>
      have h := (int_min?_eq_some_iff _ _).mp hmin2
      have hm0 : 0 ≤ m := hdays m h.1
      simp only [Option.getD_some]
      omega

/-- Whenever the calculator produces a next time for a pattern, that time
is strictly later than the input time, provided the configured weekday
numbers are nonnegative. -/
theorem calcNext_gt (t : Int) (p : String) (dys : Option (List Int))
    (hdays : ∀ l, dys = some l → ∀ d ∈ l, 0 ≤ d)
    (nt : Int) (h : calculateNextExecutionTime t p dys = some nt) :
    t < nt := by
  by_cases hd : p = "daily"
  · subst hd
    rw [calcNext_daily] at h
    have : nt = t + msPerDay := (Option.some_inj.mp h).symm
    subst this
    unfold msPerDay
    omega
  by_cases hw : p = "weekly"
  · subst hw
    cases dys with
    | none =>
      rw [calcNext_weekly_none] at h
      have : nt = t + 7 * msPerDay := (Option.some_inj.mp h).symm
      subst this
      unfold msPerDay
      omega
    | some days =>
      by_cases hnil : days = []
      · subst hnil
        rw [calcNext_weekly_nil] at h
        have : nt = t + 7 * msPerDay := (Option.some_inj.mp h).symm
        subst this
        unfold msPerDay
        omega
      · rw [calcNext_weekly_eq t days hnil] at h
        have hnt : nt = t + weeklyAdvanceSpec (weekDay t) days * msPerDay :=
          (Option.some_inj.mp h).symm
        subst hnt
        have hpos := weeklyAdvanceSpec_pos (weekDay t) days (weekDay_nonneg t)
          (weekDay_lt t) (hdays days rfl)
        unfold msPerDay at *
        omega
  by_cases hm : p = "monthly"
  · subst hm
    rw [calcNext_monthly] at h
    have : nt = setMonthTo t (monthFromTime t + 1) := (Option.some_inj.mp h).symm
    subst this
    exact setMonthTo_succ_gt t
  · rw [calcNext_default t dys p hd hw hm] at h
    exact absurd h (by simp)

/-! The data model: rows of the schedules table, devices of the external
directory, and the outcome objects the handler builds.  A device filter is
stored as a JSON string; we model the outcome of JSON.parse as either a
parsed filter or a malformed blob on which parsing throws. -/

structure Device where
  id : Nat
  name : String
deriving DecidableEq

structure DeviceFilter where
  groupIds : Option (List Nat)
  nameContains : Option String
deriving DecidableEq

inductive FilterBlob where
  | malformed
  | parsed (f : DeviceFilter)
deriving DecidableEq

structure Schedule where
  id : Nat
  enabled : Bool
  schedule_type : String
  start_time : Int
  recurrence_pattern : Option String
  recurrence_days : Option (List Int)
  device_filter : Option FilterBlob
  profile_id : Nat
  last_executed_at : Option Int
deriving DecidableEq

/-- The updateData object the handler accumulates: start_time is written
only when present; last_executed_at is always written (none = SQL NULL). -/
structure UpdateData where
  start_time : Option Int
  last_executed_at : Option Int
deriving DecidableEq

/-- One entry of the results array (ExecutionOutcome). The failure shape
carries only scheduleId, success and error. -/
structure Outcome where
  scheduleId : Nat
  profileId : Option Nat
  devicesCount : Option Nat
  success : Bool
  nextExecution : Option Int
  error : Option String
deriving DecidableEq

/-- Outcomes of the external collaborators during one run: the SimpleMDM
device-directory fetch, the per-device profile push, and the per-row
schedules-table update. -/
structure Env where
  fetchDevicesResult : Except String (List Device)
  pushResult : Nat → Nat → Bool
  updateResult : Nat → Bool

/-- Deployment configuration read from the environment variables. -/
structure Config where
  expectedApiKey : Option String
  supabaseConfigured : Bool
  mdmKeyConfigured : Bool

/-- The inbound HTTP request: method, x-api-key header, and whether the
x-vercel-cron header equals the string true. -/
structure Request where
  method : String
  apiKey : Option String
  vercelCron : Bool

/-- The response the handler returns. -/
inductive Response where
  | methodNotAllowed
  | unauthorized
  | configError (which : String)
  | noSchedules
  | report (executed : Nat) (failed : Nat) (results : List Outcome)
deriving DecidableEq

/-! The device resolver (fetchAllDevices / fetchFilteredDevices) and its
substring predicate, translated from the source. -/

/-- Whether pat occurs as a contiguous run inside l. -/
def containsChars (pat : List Char) : List Char → Bool
  | [] => pat.isEmpty
  | c :: rest => pat.isPrefixOf (c :: rest) || containsChars pat rest

/-- JavaScript a.toLowerCase().includes(b.toLowerCase()). -/
def nameMatches (deviceName pat : String) : Bool :=
  containsChars pat.toLower.data deviceName.toLower.data

/-- Source function fetchAllDevices: on any remote error the catch block
returns an empty data array, so the caller always receives a list. -/
def fetchAllDevices (env : Env) : List Device :=
  match env.fetchDevicesResult with
  | .ok ds => ds
  | .error _ => []

/-- Source function fetchFilteredDevices: groupIds is accepted but has no
evaluation logic; only the nameContains predicate filters. -/
def fetchFilteredDevices (filter : DeviceFilter) (env : Env) : List Device :=
  let devices := fetchAllDevices env
  match filter.nameContains with
  | some pat => devices.filter (fun d => nameMatches d.name pat)
  | none => devices

/-- The device-resolution block of the handler: a present filter that
fails to parse is caught and yields no devices; a present parsed filter
goes through fetchFilteredDevices; no filter fetches the full directory. -/
def resolveDevices (env : Env) (s : Schedule) : List Device :=
  match s.device_filter with
  | some FilterBlob.malformed => []
  | some (FilterBlob.parsed f) => fetchFilteredDevices f env
  | none => fetchAllDevices env

/-- JavaScript truthiness of an optional string (null and the empty
string are falsy). -/
def truthyStr : Option String → Bool
  | none => false
  | some s => !s.isEmpty

/-- The updateData computation of the handler (lines 70-86): claim marker
by default; for a recurring schedule with a truthy pattern whose
calculator yields a next time, advance start_time and reset the marker. -/
def computeUpdateData (now : Int) (s : Schedule) : UpdateData :=
  if s.schedule_type == "recurring" && truthyStr s.recurrence_pattern then
    match calculateNextExecutionTime s.start_time
        (s.recurrence_pattern.getD "") s.recurrence_days with
    | some nextTime => { start_time := some nextTime, last_executed_at := none }
    | none => { start_time := none, last_executed_at := some now }
  else
    { start_time := none, last_executed_at := some now }

/-- Effect of the supabase update on one row: start_time only when the
updateData carries one; last_executed_at always. -/
def applyUpdate (upd : UpdateData) (s : Schedule) : Schedule :=
  { s with
    start_time := upd.start_time.getD s.start_time
    last_executed_at := upd.last_executed_at }

/-- Source function pushProfileToDevice, as observed through the
environment: true = the remote call returned 2xx. -/
def pushProfileToDevice (env : Env) (profileId deviceId : Nat) : Bool :=
  env.pushResult profileId deviceId

/-- The per-schedule pipeline of the handler (the body of the map over
schedulesToExecute): compute updateData, resolve devices, push to each
(the push results are not consulted afterwards by the source), then
write the row.  Returns the ExecutionOutcome and the applied updateData
(none when the write failed and the catch produced a failure outcome). -/
def processSchedule (env : Env) (now : Int) (s : Schedule) :
    Outcome × Option UpdateData :=
  let upd := computeUpdateData now s
  let targetDevices := resolveDevices env s
  let _pushResults := targetDevices.map
    (fun d => pushProfileToDevice env s.profile_id d.id)
  if env.updateResult s.id then
    ({ scheduleId := s.id
       profileId := some s.profile_id
       devicesCount := some targetDevices.length
       success := true
       nextExecution := upd.start_time
       error := none }, some upd)
  else
    ({ scheduleId := s.id
       profileId := none
       devicesCount := none
       success := false
       nextExecution := none
       error := some "Failed to update schedule" }, none)

/-! The due-scan (lines 41-53): window arithmetic and the supabase query
with its order-by clause. -/

/-- The 15-minute window constant, in milliseconds. -/
def windowMs : Int := 15 * 60 * 1000

/-- The conjunction of the where clauses of the due-scan query:
enabled = true, start_time ≤ now, start_time > now − window,
last_executed_at IS NULL. -/
def isDue (now : Int) (s : Schedule) : Bool :=
  s.enabled && decide (s.start_time ≤ now)
    && decide (now - windowMs < s.start_time)
    && (s.last_executed_at == none)

/-- Comparator of the order-by clause: ascending start_time. -/
def schedLE (a b : Schedule) : Prop := a.start_time ≤ b.start_time

instance : DecidableRel schedLE := fun a b =>
  inferInstanceAs (Decidable (a.start_time ≤ b.start_time))

instance : IsTotal Schedule schedLE :=
  ⟨fun a b => Int.le_total a.start_time b.start_time⟩

instance : IsTrans Schedule schedLE :=
  ⟨fun _ _ _ hab hbc => le_trans hab hbc⟩

/-- The due-scan: filter by the where clauses, order by start_time
ascending. -/
def selectDue (now : Int) (store : List Schedule) : List Schedule :=
  List.insertionSort schedLE (store.filter (isDue now))

/-- The outcome list of one run: one ExecutionOutcome per selected
schedule, in selection order (Promise.all preserves order). -/
def runResults (env : Env) (now : Int) (store : List Schedule) : List Outcome :=
  (selectDue now store).map (fun s => (processSchedule env now s).1)

/-- The store after one run: each selected schedule whose row update
succeeded is rewritten by its updateData, matched by id. -/
def runStore (env : Env) (now : Int) (store : List Schedule) : List Schedule :=
  (selectDue now store).foldl
    (fun st sel =>
      match (processSchedule env now sel).2 with
      | some upd => st.map (fun x => if x.id == sel.id then applyUpdate upd x else x)
      | none => st)
    store

/-- Whether the API-key guard fires (line 17): a configured truthy key,
a mismatching x-api-key header, and not the Vercel cron. -/
def authRejects (cfg : Config) (req : Request) : Bool :=
  truthyStr cfg.expectedApiKey && !(req.apiKey == cfg.expectedApiKey)
    && !req.vercelCron

/-- The top-level handler: method check, API-key guard, configuration
checks, due-scan, per-schedule processing, aggregation.  Returns the
response and the final state of the schedules store. -/
def handler (cfg : Config) (env : Env) (req : Request) (now : Int)
    (store : List Schedule) : Response × List Schedule :=
  if !(req.method == "POST") && !(req.method == "GET") then
    (Response.methodNotAllowed, store)
  else if authRejects cfg req then
    (Response.unauthorized, store)
  else if !cfg.supabaseConfigured then
    (Response.configError "Database configuration missing", store)
  else if !cfg.mdmKeyConfigured then
    (Response.configError "SimpleMDM API key not configured", store)
  else
    let schedulesToExecute := selectDue now store
    if schedulesToExecute.isEmpty then
      (Response.noSchedules, store)
    else
      let results := runResults env now store
      (Response.report
        (results.filter (fun r => r.success)).length
        (results.filter (fun r => !r.success)).length
        results,
       runStore env now store)

/-! A small-step model of two overlapping invocations of the handler.
Each await of the source is a suspension point, so a run is a sequence of
atomic events against the shared store: one select (the due-scan read),
then per selected schedule a push (the remote profile calls for that
schedule) followed by the row update write.  This is the shape of the
source pipeline: select at lines 46-53, push at 110-114, update at
117-120, with no store write between select and update. -/

inductive Op where
  | select
  | push (s : Schedule)
  | update (s : Schedule)
deriving DecidableEq

structure RunSt where
  now : Int
  prog : List Op
  pushed : List Nat
deriving DecidableEq

/-- A fresh invocation at time now: its first step is the due-scan. -/
def initRun (now : Int) : RunSt :=
  { now := now, prog := [Op.select], pushed := [] }

/-- After the select resolves, the run processes each selected schedule:
remote pushes first, then the unconditional row update. -/
def planOps (selected : List Schedule) : List Op :=
  selected.flatMap (fun s => [Op.push s, Op.update s])

/-- One atomic step of a single run against the shared store. -/
def stepRun (store : List Schedule) (r : RunSt) : List Schedule × RunSt :=
  match r.prog with
  | [] => (store, r)
  | Op.select :: rest =>
      (store, { r with prog := planOps (selectDue r.now store) ++ rest })
  | Op.push s :: rest =>
      (store, { r with prog := rest, pushed := r.pushed ++ [s.id] })
  | Op.update s :: rest =>
      (store.map (fun x =>
        if x.id == s.id then applyUpdate (computeUpdateData r.now s) x else x),
       { r with prog := rest })

structure TwoRuns where
  store : List Schedule
  run1 : RunSt
  run2 : RunSt
deriving DecidableEq

/-- Scheduler choice: true steps run 1, false steps run 2. -/
def stepSys (st : TwoRuns) (choice : Bool) : TwoRuns :=
  if choice then
    let p := stepRun st.store st.run1
    { store := p.1, run1 := p.2, run2 := st.run2 }
  else
    let p := stepRun st.store st.run2
    { store := p.1, run1 := st.run1, run2 := p.2 }

/-- Execute a whole interleaving. -/
def runTrace (init : TwoRuns) (trace : List Bool) : TwoRuns :=
  trace.foldl stepSys init

/-! Concrete fixtures used by the per-claim witnesses and
counterexamples. -/

/-- A due one-shot schedule: enabled, unclaimed, start_time =
2024-01-01T09:00:00Z. -/
def jobOne : Schedule :=
  { id := 1, enabled := true, schedule_type := "one_shot"
    start_time := 1704099600000, recurrence_pattern := none
    recurrence_days := none, device_filter := none
    profile_id := 5, last_executed_at := none }

/-- A due daily recurring schedule, same start time. -/
def dailyJob : Schedule :=
  { id := 2, enabled := true, schedule_type := "recurring"
    start_time := 1704099600000, recurrence_pattern := some "daily"
    recurrence_days := none, device_filter := none
    profile_id := 7, last_executed_at := none }

/-- A schedule whose stored device filter does not parse. -/
def badFilterJob : Schedule :=
  { id := 3, enabled := true, schedule_type := "one_shot"
    start_time := 1704099600000, recurrence_pattern := none
    recurrence_days := none, device_filter := some FilterBlob.malformed
    profile_id := 9, last_executed_at := none }

/-- An environment where every remote call and every row update succeeds
and the directory holds one device. -/
def okEnv : Env :=
  { fetchDevicesResult := Except.ok [{ id := 11, name := "Lab iPad" }]
    pushResult := fun _ _ => true
    updateResult := fun _ => true }

/-- An environment where every row update fails. -/
def updateFailEnv : Env :=
  { fetchDevicesResult := Except.ok [{ id := 11, name := "Lab iPad" }]
    pushResult := fun _ _ => true
    updateResult := fun _ => false }

/-- An environment where the device directory is unreachable and every
profile push fails. -/
def remoteFailEnv : Env :=
  { fetchDevicesResult := Except.error "SimpleMDM API error: 500"
    pushResult := fun _ _ => false
    updateResult := fun _ => true }

/-- A fully configured deployment with no API key requirement. -/
def openCfg : Config :=
  { expectedApiKey := none, supabaseConfigured := true
    mdmKeyConfigured := true }

/-- A fully configured deployment that expects an API key. -/
def keyCfg : Config :=
  { expectedApiKey := some "secret", supabaseConfigured := true
    mdmKeyConfigured := true }

/-- A manual POST call presenting no API key. -/
def postReq : Request :=
  { method := "POST", apiKey := none, vercelCron := false }

/-- The periodic Vercel cron trigger: GET with the cron header. -/
def cronReq : Request :=
  { method := "GET", apiKey := none, vercelCron := true }

/-- Two runs invoked at the same instant over a store holding one due
one-shot job. -/
def c1Init : TwoRuns :=
  { store := [jobOne]
    run1 := initRun 1704099600000
    run2 := initRun 1704099600000 }

/-- A due schedule sitting exactly on the lower window boundary
start_time = now − 15 minutes for now = 900000. -/
def boundaryJob : Schedule :=
  { id := 4, enabled := true, schedule_type := "one_shot"
    start_time := 0, recurrence_pattern := none
    recurrence_days := none, device_filter := none
    profile_id := 2, last_executed_at := none }

/-- Splitting a filtered list by a boolean flag accounts for every
element exactly once. -/
theorem length_filter_split {α : Type} (p : α → Bool) (l : List α) :
    (l.filter p).length + (l.filter (fun x => !p x)).length = l.length := by
  induction l with
  | nil => rfl
  | cons a l ih =>
    cases ha : p a <;> simp [List.filter_cons, ha] <;> omega

/-! Claim theorems. -/

/-- C1: the claim states the claim step is an atomic compare-and-set on
lastExecutedAt, so that of two concurrent runs at most one claims any
given job.  The source has no such step: it selects, pushes, then writes
the row unconditionally.  In the interleaving where both runs perform
their due-scan before either row update (run 1 select, run 2 select,
run 1 push, run 1 update, run 2 push, run 2 update), both runs push the
profile of the single due job with id 1: a double push. -/
theorem c1_two_runs_double_push :
    (runTrace c1Init [true, false, true, true, false, false]).run1.pushed = [1]
    ∧ (runTrace c1Init [true, false, true, true, false, false]).run2.pushed = [1] := by
  decide

/-- C2 counterexample: the claim reads the due window as the closed
interval [now − W, now], lower boundary included.  The query uses a
strict gt on the lower bound, so a job with start_time = now − W
(here now = 900000 = windowMs and start_time = 0) satisfies every
condition of the claimed window yet is not selected. -/
theorem c2_lower_boundary_counterexample :
    selectDue 900000 [boundaryJob] = []
    ∧ boundaryJob.enabled = true
    ∧ boundaryJob.last_executed_at = none
    ∧ 900000 - windowMs ≤ boundaryJob.start_time
    ∧ boundaryJob.start_time ≤ 900000 := by
  decide

/-- C2 amended: a run selects exactly the jobs with enabled = true,
lastExecutedAt null, and startTime in the half-open due window
(now − W, now] — the lower boundary startTime = now − W excluded, the
upper boundary startTime = now included — ordered by startTime
ascending. -/
theorem c2_selection_characterisation (now : Int) (store : List Schedule) :
    (∀ s, s ∈ selectDue now store ↔
      s ∈ store ∧ s.enabled = true ∧ s.last_executed_at = none
        ∧ now - windowMs < s.start_time ∧ s.start_time ≤ now)
    ∧ List.Sorted schedLE (selectDue now store)
    ∧ (selectDue now store).Perm (store.filter (isDue now)) := by
  refine ⟨?_, List.sorted_insertionSort _ _, List.perm_insertionSort _ _⟩
  intro s
  unfold selectDue
  rw [(List.perm_insertionSort schedLE (store.filter (isDue now))).mem_iff]
  rw [List.mem_filter]
  unfold isDue
  simp only [Bool.and_eq_true, decide_eq_true_eq, beq_iff_eq]
  tauto

/-- C3: finalization after a claimed job completes.  A one-shot job is
left with lastExecutedAt set (terminal).  A recurring job with a truthy
pattern whose calculator yields a next time gets startTime set to that
time — strictly greater than the previous startTime, given weekday
indices are nonnegative — and lastExecutedAt reset to null.  A recurring
job whose pattern yields no next time stays terminal like a one-shot. -/
theorem c3_finalization (now : Int) (s : Schedule)
    (hdays : ∀ l, s.recurrence_days = some l → ∀ d ∈ l, 0 ≤ d) :
    (s.schedule_type = "one_shot" →
      (applyUpdate (computeUpdateData now s) s).last_executed_at = some now)
    ∧ (∀ p nt, s.schedule_type = "recurring" → s.recurrence_pattern = some p →
        truthyStr s.recurrence_pattern = true →
        calculateNextExecutionTime s.start_time p s.recurrence_days = some nt →
          (applyUpdate (computeUpdateData now s) s).start_time = nt
          ∧ (applyUpdate (computeUpdateData now s) s).last_executed_at = none
          ∧ s.start_time < nt)
    ∧ (∀ p, s.schedule_type = "recurring" → s.recurrence_pattern = some p →
        calculateNextExecutionTime s.start_time p s.recurrence_days = none →
        (applyUpdate (computeUpdateData now s) s).last_executed_at = some now) := by
  refine ⟨?_, ?_, ?_⟩
  · intro h
    unfold computeUpdateData
    rw [h]
    rw [if_neg (by simp)]
    rfl
  · intro p nt htype hpat htruthy hcalc
    rw [hpat] at htruthy
    unfold computeUpdateData
    rw [htype, hpat]
    rw [if_pos (by simp [htruthy])]
    simp only [Option.getD_some]
    rw [hcalc]
    exact ⟨rfl, rfl, calcNext_gt s.start_time p s.recurrence_days hdays nt hcalc⟩
  · intro p htype hpat hcalc
    unfold computeUpdateData
    rw [htype, hpat]
    by_cases htruthy : truthyStr (some p) = true
    · rw [if_pos (by simp [htruthy])]
      simp only [Option.getD_some]
      rw [hcalc]
      rfl
    · rw [if_neg (by simp [htruthy])]
      rfl

/-- C3 witness: on the concrete daily job due 2024-01-01T09:00:00Z,
finalizing at a later instant advances startTime by exactly one day to
2024-01-02T09:00:00Z and resets lastExecutedAt to null. -/
theorem c3_finalization_witness :
    (applyUpdate (computeUpdateData 1704200000000 dailyJob) dailyJob).start_time
        = 1704186000000
    ∧ (applyUpdate (computeUpdateData 1704200000000 dailyJob) dailyJob).last_executed_at
        = none
    ∧ dailyJob.start_time < 1704186000000 :=
  (c3_finalization 1704200000000 dailyJob (fun _ hl => nomatch hl)).2.1
    "daily" 1704186000000 rfl rfl (by decide) (by decide)

/-- C4: when the final row write fails, the run does report the job as a
failure without crashing (first conjunct: a structured report with that
single failed outcome), but — against the claim — the persisted row is
left unchanged with lastExecutedAt still null, so the job is selected
again by the very next due-scan inside the window instead of staying
claimed until manual intervention. -/
theorem c4_commit_failure_behavior :
    (handler openCfg updateFailEnv postReq 1704099600000 [jobOne]).1
      = Response.report 0 1
          [{ scheduleId := 1, profileId := none, devicesCount := none
             success := false, nextExecution := none
             error := some "Failed to update schedule" }]
    ∧ (handler openCfg updateFailEnv postReq 1704099600000 [jobOne]).2 = [jobOne]
    ∧ jobOne.last_executed_at = none
    ∧ selectDue 1704099600000
        (handler openCfg updateFailEnv postReq 1704099600000 [jobOne]).2 = [jobOne] := by
  decide

/-- C5: when an API key is configured (a nonempty expected key) and a
non-cron request does not present exactly that key, the handler answers
unauthorized and leaves the store untouched (for an allowed method it is
precisely the unauthorized response; for any method the store is never
mutated), while a request carrying the Vercel cron header is never
rejected as unauthorized. -/
theorem c5_auth_boundary (cfg : Config) (env : Env) (req : Request)
    (now : Int) (store : List Schedule) :
    (∀ k, cfg.expectedApiKey = some k → k ≠ "" → req.vercelCron = false →
      req.apiKey ≠ some k → (req.method = "POST" ∨ req.method = "GET") →
      handler cfg env req now store = (Response.unauthorized, store))
    ∧ (∀ k, cfg.expectedApiKey = some k → k ≠ "" → req.vercelCron = false →
      req.apiKey ≠ some k → (handler cfg env req now store).2 = store)
    ∧ (req.vercelCron = true → req.method = "GET" →
      (handler cfg env req now store).1 ≠ Response.unauthorized) := by
  have hrej : ∀ k, cfg.expectedApiKey = some k → k ≠ "" →
      req.vercelCron = false → req.apiKey ≠ some k →
      authRejects cfg req = true := by
    intro k hk hk0 hcron hne
    have hemp : k.isEmpty = false := by
      cases he : k.isEmpty
      · rfl
      · exact absurd ((String.isEmpty_iff k).mp he) hk0
    have hbeq : (req.apiKey == cfg.expectedApiKey) = false := by
      rw [hk]
      exact beq_eq_false_iff_ne.mpr hne
    simp [authRejects, truthyStr, hk, hemp, hbeq, hcron, hne]
  refine ⟨?_, ?_, ?_⟩
  · intro k hk hk0 hcron hne hmeth
    have h1 := hrej k hk hk0 hcron hne
    rcases hmeth with hm | hm <;> simp [handler, hm, h1]
  · intro k hk hk0 hcron hne
    have h1 := hrej k hk hk0 hcron hne
    unfold handler
    cases hcond : (!(req.method == "POST") && !(req.method == "GET"))
    · simp [hcond, h1]
    · simp [hcond]
  · intro hcron hm
    have h0 : authRejects cfg req = false := by
      simp [authRejects, hcron]
    simp only [handler, hm, h0]
    split_ifs <;> simp_all

/-- C5 witness: a manual POST presenting the wrong key against a
deployment expecting the key secret is answered unauthorized with the
store untouched, while the periodic cron trigger is accepted. -/
theorem c5_auth_boundary_witness :
    handler keyCfg okEnv
        { method := "POST", apiKey := some "wrong", vercelCron := false } 0 []
      = (Response.unauthorized, [])
    ∧ (handler keyCfg okEnv cronReq 1704099600000 [jobOne]).1
        ≠ Response.unauthorized :=
  ⟨(c5_auth_boundary keyCfg okEnv
      { method := "POST", apiKey := some "wrong", vercelCron := false } 0 []).1
      "secret" rfl (by decide) rfl (by decide) (Or.inl rfl),
   (c5_auth_boundary keyCfg okEnv cronReq 1704099600000 [jobOne]).2.2 rfl rfl⟩

/-- C6: for the weekly pattern with a nonempty day set the calculator
advances by weeklyAdvanceSpec days: target − current days to the
smallest configured day strictly greater than the current weekday when
one exists, else a wrap of 7 − current + target days to the smallest
configured day; a missing or empty day set advances by exactly 7 days;
and every produced time preserves the time-of-day. -/
theorem c6_weekly (t : Int) (days : List Int) :
    (days ≠ [] → calculateNextExecutionTime t "weekly" (some days)
        = some (t + weeklyAdvanceSpec (weekDay t) days * msPerDay))
    ∧ calculateNextExecutionTime t "weekly" none = some (t + 7 * msPerDay)
    ∧ calculateNextExecutionTime t "weekly" (some []) = some (t + 7 * msPerDay)
    ∧ (∀ u, calculateNextExecutionTime t "weekly" (some days) = some u →
        timeWithinDay u = timeWithinDay t) := by
  refine ⟨fun hne => calcNext_weekly_eq t days hne, calcNext_weekly_none t,
    calcNext_weekly_nil t, ?_⟩
  intro u hu
  by_cases hne : days = []
  · subst hne
    rw [calcNext_weekly_nil] at hu
    have : u = t + 7 * msPerDay := (Option.some_inj.mp hu).symm
    subst this
    exact timeWithinDay_add_days t 7
  · rw [calcNext_weekly_eq t days hne] at hu
    have : u = t + weeklyAdvanceSpec (weekDay t) days * msPerDay :=
      (Option.some_inj.mp hu).symm
    subst this
    exact timeWithinDay_add_days t _

/-- C6 witness: from Monday 2024-01-01T09:00:00Z with configured days
Wednesday and Friday the advance is 2 days; from Friday 2024-01-05 with
the same set no configured day is greater, so it wraps 5 days to the
following Wednesday. -/
theorem c6_weekly_witness :
    calculateNextExecutionTime 1704099600000 "weekly" (some [3, 5])
      = some (1704099600000 + weeklyAdvanceSpec (weekDay 1704099600000) [3, 5] * msPerDay)
    ∧ weeklyAdvanceSpec (weekDay 1704099600000) [3, 5] = 2
    ∧ calculateNextExecutionTime 1704445200000 "weekly" (some [3, 5])
      = some (1704445200000 + weeklyAdvanceSpec (weekDay 1704445200000) [3, 5] * msPerDay)
    ∧ weeklyAdvanceSpec (weekDay 1704445200000) [3, 5] = 5 :=
  ⟨(c6_weekly 1704099600000 [3, 5]).1 (by decide), by decide,
   (c6_weekly 1704445200000 [3, 5]).1 (by decide), by decide⟩

/-- Time-of-day of a day number paired with an in-range time. -/
theorem timeWithinDay_makeDate (d r : Int) (h0 : 0 ≤ r) (h1 : r < msPerDay) :
    timeWithinDay (makeDate d r) = r := by
  unfold timeWithinDay makeDate msPerDay at *
  omega

/-- C7: the daily pattern advances by exactly one day preserving
time-of-day; the monthly pattern advances the month component by one,
keeping the day-of-month and the time-of-day (through MakeDay
normalisation); any other pattern — none, one_shot scheduling, or an
unrecognised string — yields no next occurrence. -/
theorem c7_daily_monthly_default (t : Int) (dys : Option (List Int)) (p : String) :
    calculateNextExecutionTime t "daily" dys = some (t + msPerDay)
    ∧ timeWithinDay (t + msPerDay) = timeWithinDay t
    ∧ calculateNextExecutionTime t "monthly" dys
        = some (makeDate
            (makeDay (yearFromTime t) (monthFromTime t + 1) (dateFromTime t))
            (timeWithinDay t))
    ∧ timeWithinDay (makeDate
          (makeDay (yearFromTime t) (monthFromTime t + 1) (dateFromTime t))
          (timeWithinDay t)) = timeWithinDay t
    ∧ (p ≠ "daily" → p ≠ "weekly" → p ≠ "monthly" →
        calculateNextExecutionTime t p dys = none) := by
  refine ⟨calcNext_daily t dys, ?_, calcNext_monthly t dys, ?_,
    calcNext_default t dys p⟩
  · have h := timeWithinDay_add_days t 1
    rwa [one_mul] at h
  · exact timeWithinDay_makeDate _ _ (timeWithinDay_nonneg t) (timeWithinDay_lt t)

/-- C7 witness: from 2024-01-15T12:00:00Z, daily yields the next noon,
monthly yields 2024-02-15T12:00:00Z, and the pattern none of a one-shot
schedule yields no next occurrence. -/
theorem c7_daily_monthly_default_witness :
    calculateNextExecutionTime 1705320000000 "daily" none
      = some (1705320000000 + msPerDay)
    ∧ calculateNextExecutionTime 1705320000000 "monthly" none
        = some (makeDate
            (makeDay (yearFromTime 1705320000000) (monthFromTime 1705320000000 + 1)
              (dateFromTime 1705320000000))
            (timeWithinDay 1705320000000))
    ∧ makeDate
        (makeDay (yearFromTime 1705320000000) (monthFromTime 1705320000000 + 1)
          (dateFromTime 1705320000000))
        (timeWithinDay 1705320000000) = 1707998400000
    ∧ calculateNextExecutionTime 1705320000000 "none" none = none :=
  ⟨(c7_daily_monthly_default 1705320000000 none "none").1,
   (c7_daily_monthly_default 1705320000000 none "none").2.2.1,
   by decide,
   (c7_daily_monthly_default 1705320000000 none "none").2.2.2.2
     (by decide) (by decide) (by decide)⟩

/-- C8: device resolution is total and fail-safe.  A remote directory
error yields the empty device set whatever the filter; a malformed
stored filter yields the empty set, and — provided the row commit
succeeds — the job still completes with success and devicesCount 0; an
absent filter returns the full directory. -/
theorem c8_resolver_safety (env : Env) (now : Int) (s : Schedule) :
    (∀ e, env.fetchDevicesResult = Except.error e → resolveDevices env s = [])
    ∧ (s.device_filter = some FilterBlob.malformed →
        resolveDevices env s = []
        ∧ (env.updateResult s.id = true →
            (processSchedule env now s).1.success = true
            ∧ (processSchedule env now s).1.devicesCount = some 0))
    ∧ (∀ ds, s.device_filter = none → env.fetchDevicesResult = Except.ok ds →
        resolveDevices env s = ds) := by
  refine ⟨?_, ?_, ?_⟩
  · intro e he
    cases hdf : s.device_filter with
    | none => simp [resolveDevices, hdf, fetchAllDevices, he]
    | some blob =>
      cases blob with
      | malformed => simp [resolveDevices, hdf]
      | parsed f =>
        cases hnc : f.nameContains with
        | none =>
          simp [resolveDevices, hdf, fetchFilteredDevices, fetchAllDevices, he, hnc]
        | some pat =>
          simp [resolveDevices, hdf, fetchFilteredDevices, fetchAllDevices, he, hnc]
  · intro hdf
    have hres : resolveDevices env s = [] := by simp [resolveDevices, hdf]
    refine ⟨hres, ?_⟩
    intro hup
    constructor <;> simp [processSchedule, hres, hup]
  · intro ds hdf hok
    simp [resolveDevices, hdf, fetchAllDevices, hok]

/-- C8 witness: an unreachable directory resolves to no devices, and the
malformed-filter job; with a healthy store write, reports success with
devicesCount 0. -/
theorem c8_resolver_safety_witness :
    resolveDevices remoteFailEnv jobOne = []
    ∧ resolveDevices okEnv badFilterJob = []
    ∧ (processSchedule okEnv 1704099600000 badFilterJob).1.success = true
    ∧ (processSchedule okEnv 1704099600000 badFilterJob).1.devicesCount = some 0 := by
  have h1 := (c8_resolver_safety remoteFailEnv 0 jobOne).1
    "SimpleMDM API error: 500" rfl
  have h2 := (c8_resolver_safety okEnv 1704099600000 badFilterJob).2.1 rfl
  exact ⟨h1, h2.1, (h2.2 rfl).1, (h2.2 rfl).2⟩

/-- C9: per-device push failures do not gate the job outcome.  When the
row commit succeeds the outcome reports success, and the outcome is
unchanged under an arbitrary replacement of the push results. -/
theorem c9_push_failures_do_not_gate (env : Env) (now : Int) (s : Schedule)
    (pr : Nat → Nat → Bool) :
    (env.updateResult s.id = true → (processSchedule env now s).1.success = true)
    ∧ (processSchedule { env with pushResult := pr } now s).1
        = (processSchedule env now s).1 := by
  constructor
  · intro hup
    simp [processSchedule, hup]
  · rfl

/-- An environment whose single device rejects every push while row
updates succeed. -/
def pushFailEnv : Env :=
  { fetchDevicesResult := Except.ok [{ id := 11, name := "Lab iPad" }]
    pushResult := fun _ _ => false
    updateResult := fun _ => true }

/-- C9 witness: the push to the only resolved device fails, yet the job
outcome reports success. -/
theorem c9_push_failures_witness :
    (processSchedule pushFailEnv 1704099600000 jobOne).1.success = true
    ∧ pushProfileToDevice pushFailEnv 5 11 = false :=
  ⟨(c9_push_failures_do_not_gate pushFailEnv 1704099600000 jobOne
      (fun _ _ => false)).1 rfl,
   by decide⟩

/-- C10: on a nonempty selection a run produces exactly one outcome per
selected job, the success and failure counts sum to the number of
selected jobs, and the returned report carries exactly those counts and
that outcome list. -/
theorem c10_report_counts (cfg : Config) (env : Env) (req : Request)
    (now : Int) (store : List Schedule)
    (hm : req.method = "POST") (hauth : authRejects cfg req = false)
    (hsb : cfg.supabaseConfigured = true) (hmdm : cfg.mdmKeyConfigured = true)
    (hne : selectDue now store ≠ []) :
    (runResults env now store).length = (selectDue now store).length
    ∧ ((runResults env now store).filter (fun r => r.success)).length
        + ((runResults env now store).filter (fun r => !r.success)).length
        = (selectDue now store).length
    ∧ (handler cfg env req now store).1
        = Response.report
            ((runResults env now store).filter (fun r => r.success)).length
            ((runResults env now store).filter (fun r => !r.success)).length
            (runResults env now store) := by
  have hlen : (runResults env now store).length = (selectDue now store).length := by
    unfold runResults
    rw [List.length_map]
  refine ⟨hlen, ?_, ?_⟩
  · rw [length_filter_split]
    exact hlen
  · have hempty : (selectDue now store).isEmpty = false := by simpa using hne
    simp [handler, hm, hauth, hsb, hmdm, hempty]

/-- C10 witness: one due job, every collaborator healthy: the report is
executed 1, failed 0, with the single success outcome. -/
theorem c10_report_counts_witness :
    (runResults okEnv 1704099600000 [jobOne]).length
      = (selectDue 1704099600000 [jobOne]).length
    ∧ (handler openCfg okEnv postReq 1704099600000 [jobOne]).1
        = Response.report
            ((runResults okEnv 1704099600000 [jobOne]).filter
              (fun r => r.success)).length
            ((runResults okEnv 1704099600000 [jobOne]).filter
              (fun r => !r.success)).length
            (runResults okEnv 1704099600000 [jobOne]) := by
  have h := c10_report_counts openCfg okEnv postReq 1704099600000 [jobOne]
    rfl (by decide) rfl rfl (by decide)
  exact ⟨h.1, h.2.2⟩

end MdmDash
